import Mathlib

/-!
Verification of the BMP header / pixel-buffer builder of the `imgo`
repository (`encode.go`: `EncodeImg`, `ConvertToRGBA`, `header`; `img.go`:
`GetSize`, `Width`, `Height`).  Go `uint32` / `uint8` arithmetic is modelled
on `Nat` with explicit reductions modulo `2^32` / `2^8`.
-/

namespace Imgo

/-- Go `uint32(x)` conversion / wrap-around of unsigned 32-bit arithmetic. -/
def u32 (n : Nat) : Nat := n % 4294967296

/-- Go `uint8(x)` conversion: keep the low 8 bits. -/
def u8 (n : Nat) : Nat := n % 256

/-- Result of Go's `color.Color.RGBA()`: four alpha-premultiplied channels,
each in `0 .. 0xffff`. -/
structure GoColor where
  r : Nat
  g : Nat
  b : Nat
  a : Nat
  deriving DecidableEq

/-- The concrete dynamic type of the `image.Image` passed to `EncodeImg`,
as discriminated by its type switch: `*image.Gray`, `*image.Paletted`
(carrying its color table), `*image.RGBA` / `*image.NRGBA` (carrying the
result of their `Opaque()` method), or any other implementation. -/
inductive Format where
  | gray : Format
  | paletted : List GoColor → Format
  | rgba : Bool → Format
  | nrgba : Bool → Format
  | other : Format
  deriving DecidableEq

/-- Go `image.Rectangle`: two corner points `Min = (minX, minY)` and
`Max = (maxX, maxY)`. -/
structure Rectangle where
  minX : Int
  minY : Int
  maxX : Int
  maxY : Int
  deriving DecidableEq

/-- Go `image.Rect(x0, y0, x1, y1)`: swaps each coordinate pair so that
`Min ≤ Max` componentwise. -/
def goRect (x0 y0 x1 y1 : Int) : Rectangle :=
  let xs := if x1 < x0 then (x1, x0) else (x0, x1)
  let ys := if y1 < y0 then (y1, y0) else (y0, y1)
  { minX := xs.1, minY := ys.1, maxX := xs.2, maxY := ys.2 }

/-- An in-memory image as `EncodeImg` sees it: its `Bounds()` rectangle, its
concrete format, its backing pixel buffer `Pix` and its `Stride`. -/
structure Img where
  rect : Rectangle
  format : Format
  pix : List Nat
  stride : Int
  deriving DecidableEq

/-- `Bounds().Size().X`: width of the bounding box (may be negative). -/
def sizeX (m : Img) : Int := m.rect.maxX - m.rect.minX

/-- `Bounds().Size().Y`: height of the bounding box (may be negative). -/
def sizeY (m : Img) : Int := m.rect.maxY - m.rect.minY

/-- The `header` struct of `encode.go`, all integer fields as `Nat`
(32-bit fields are kept reduced mod `2^32` by construction). -/
structure Header where
  sigB : Nat
  sigM : Nat
  fileSize : Nat
  reserved0 : Nat
  reserved1 : Nat
  pixOffset : Nat
  dibHeaderSize : Nat
  width : Nat
  height : Nat
  colorPlane : Nat
  bpp : Nat
  compression : Nat
  imageSize : Nat
  xPixelsPerMeter : Nat
  yPixelsPerMeter : Nat
  colorUse : Nat
  colorImportant : Nat
  deriving DecidableEq

/-- The header literal built at the top of `EncodeImg`, before the type
switch fills in the format-dependent fields. -/
def baseHeader (dX dY : Nat) : Header :=
  { sigB := 66, sigM := 77, fileSize := 14 + 40, reserved0 := 0,
    reserved1 := 0, pixOffset := 14 + 40, dibHeaderSize := 40,
    width := u32 dX, height := u32 dY, colorPlane := 1, bpp := 0,
    compression := 0, imageSize := 0, xPixelsPerMeter := 0,
    yPixelsPerMeter := 0, colorUse := 0, colorImportant := 0 }

/-- Go `x &^ 3` for a nonnegative `x`: clear the two low bits. -/
def andNotThree (n : Nat) : Nat := n - n % 4

/-- The identity grayscale palette built in the `*image.Gray` branch:
entry `i` is the four bytes `B = i`, `G = i`, `R = i`, `A = 0xFF`. -/
def grayPalette : List Nat :=
  (List.range 256).flatMap (fun i => [u8 i, u8 i, u8 i, 255])

/-- The palette built in the `*image.Paletted` branch: entry `i` is filled
from `m.Palette[i]` (BGR order, `uint8(c >> 8)` per channel, alpha forced
to `0xFF`) while `i < len(m.Palette)`, and stays the four zero bytes of
`make([]byte, 1024)` afterwards.  `palettedEntry` is one 4-byte entry. -/
def palettedEntry (pal : List GoColor) (i : Nat) : List Nat :=
  match pal[i]? with
  | some c => [u8 (c.b >>> 8), u8 (c.g >>> 8), u8 (c.r >>> 8), 255]
  | none => [0, 0, 0, 0]

def palettedPalette (pal : List GoColor) : List Nat :=
  (List.range 256).flatMap (palettedEntry pal)

/-- The type switch of `EncodeImg`: from the format and the nonnegative
bounding-box size, compute the row step, the palette bytes (empty when no
palette is built) and the completed header. -/
def formatCase (f : Format) (dX dY : Nat) (base : Header) :
    Nat × List Nat × Header :=
  match f with
  | Format.gray =>
    let step := andNotThree (dX + 3)
    let palette := grayPalette
    let imageSize := u32 (dY * step)
    (step, palette,
      { base with imageSize := imageSize,
                  fileSize := u32 (base.fileSize + u32 (u32 palette.length + imageSize)),
                  pixOffset := u32 (base.pixOffset + u32 palette.length),
                  bpp := 8 })
  | Format.paletted pal =>
    let step := andNotThree (dX + 3)
    let palette := palettedPalette pal
    let imageSize := u32 (dY * step)
    (step, palette,
      { base with imageSize := imageSize,
                  fileSize := u32 (base.fileSize + u32 (u32 palette.length + imageSize)),
                  pixOffset := u32 (base.pixOffset + u32 palette.length),
                  bpp := 8 })
  | Format.rgba op =>
    let step := if op then andNotThree (3 * dX + 3) else 4 * dX
    let imageSize := u32 (dY * step)
    (step, [],
      { base with bpp := if op then 24 else 32,
                  imageSize := imageSize,
                  fileSize := u32 (base.fileSize + imageSize) })
  | Format.nrgba op =>
    let step := if op then andNotThree (3 * dX + 3) else 4 * dX
    let imageSize := u32 (dY * step)
    (step, [],
      { base with bpp := if op then 24 else 32,
                  imageSize := imageSize,
                  fileSize := u32 (base.fileSize + imageSize) })
  | Format.other =>
    let step := andNotThree (3 * dX + 3)
    let imageSize := u32 (dY * step)
    (step, [],
      { base with imageSize := imageSize,
                  fileSize := u32 (base.fileSize + imageSize),
                  bpp := 24 })

/-- What `EncodeImg` computes: the returned `(pix, stride, err)` triple,
together with the header and palette bytes it assembles internally
(`hdr = none` when the negative-bounds error fires before the header is
built). -/
structure EncodeOut where
  pix : List Nat
  stride : Int
  err : Option String
  hdr : Option Header
  palette : List Nat
  deriving DecidableEq

/-- The message of the only error `EncodeImg` can return. -/
def negativeBoundsMsg : String := "imgo: negative bounds"

/-- The second type switch of `EncodeImg`: the four formats whose backing
buffer is handed back; the default case leaves `pix`/`stride` zeroed. -/
def isSupported : Format → Bool
  | Format.other => false
  | _ => true

/-- `EncodeImg` from `encode.go`: reject negative bounds, build the header
and palette by format, return early with empty pix for a zero-area image,
otherwise hand back the source image's own `Pix` and `Stride` for the four
supported formats (and nothing for the default case). -/
def encodeImg (m : Img) : EncodeOut :=
  if sizeX m < 0 ∨ sizeY m < 0 then
    { pix := [], stride := 0, err := some negativeBoundsMsg, hdr := none,
      palette := [] }
  else
    let r := formatCase m.format (sizeX m).toNat (sizeY m).toNat
      (baseHeader (sizeX m).toNat (sizeY m).toNat)
    if sizeX m = 0 ∨ sizeY m = 0 then
      { pix := [], stride := 0, err := none, hdr := some r.2.2,
        palette := r.2.1 }
    else if isSupported m.format then
      { pix := m.pix, stride := m.stride, err := none, hdr := some r.2.2,
        palette := r.2.1 }
    else
      { pix := [], stride := 0, err := none, hdr := some r.2.2,
        palette := r.2.1 }

/-- `Width` from the repository: `img.Bounds().Max.X`. -/
def width (m : Img) : Int := m.rect.maxX

/-- `Height` from the repository: `img.Bounds().Max.Y`. -/
def height (m : Img) : Int := m.rect.maxY

/-- The `*image.RGBA` value built by `ConvertToRGBA`. -/
structure RGBAView where
  pix : List Nat
  stride : Int
  rect : Rectangle
  deriving DecidableEq

/-- `ConvertToRGBA` from `encode.go`: reuse `EncodeImg`'s pix and stride
(its error is discarded) with rectangle `image.Rect(0, 0, Width(img),
Height(img))`. -/
def convertToRGBA (m : Img) : RGBAView :=
  let e := encodeImg m
  { pix := e.pix, stride := e.stride,
    rect := goRect 0 0 (width m) (height m) }

/-- An `image.Config` as returned by a successful `image.DecodeConfig`. -/
structure GoConfig where
  width : Nat
  height : Nat
  deriving DecidableEq

/-- `GetSize` from `img.go`, with the file open / `image.DecodeConfig`
call abstracted as its `Except` outcome: on success return
`(Width / 2, Height / 2)` (Go integer division). -/
def getSize (decoded : Except String GoConfig) : Except String (Nat × Nat) :=
  match decoded with
  | Except.error e => Except.error e
  | Except.ok c => Except.ok (c.width / 2, c.height / 2)

/-- `ceil4`: round up to the nearest multiple of 4 (the spec's wording of
the stride padding). -/
def ceil4 (n : Nat) : Nat := (n + 3) / 4 * 4

/-- A 5×1 grayscale image as built by `image.NewGray(image.Rect(0,0,5,1))`:
native `Stride = 5`, five pixel bytes. -/
def grayImg5 : Img :=
  { rect := { minX := 0, minY := 0, maxX := 5, maxY := 1 },
    format := Format.gray, pix := [10, 20, 30, 40, 50], stride := 5 }

/-- A 3-color source palette whose entry 0 is pure red:
`color.RGBA{255, 0, 0, 255}` reports `RGBA() = (0xffff, 0, 0, 0xffff)`. -/
def redGreenBluePal : List GoColor :=
  [{ r := 65535, g := 0, b := 0, a := 65535 },
   { r := 0, g := 65535, b := 0, a := 65535 },
   { r := 0, g := 0, b := 65535, a := 65535 }]

/-- A 2×2 paletted image over `redGreenBluePal` (native stride 2). -/
def palImg : Img :=
  { rect := { minX := 0, minY := 0, maxX := 2, maxY := 2 },
    format := Format.paletted redGreenBluePal, pix := [0, 1, 2, 0],
    stride := 2 }

/-- A 2×2 RGBA image whose `Opaque()` reports `true` (native stride 8). -/
def rgbaSolidImg : Img :=
  { rect := { minX := 0, minY := 0, maxX := 2, maxY := 2 },
    format := Format.rgba true, pix := List.replicate 16 255, stride := 8 }

/-- A 2×2 NRGBA image whose `Opaque()` reports `false` (native stride 8). -/
def nrgbaClearImg : Img :=
  { rect := { minX := 0, minY := 0, maxX := 2, maxY := 2 },
    format := Format.nrgba false, pix := List.replicate 16 0, stride := 8 }

/-- A 2×2 image of an unsupported concrete type (the `default` branch). -/
def otherImg : Img :=
  { rect := { minX := 0, minY := 0, maxX := 2, maxY := 2 },
    format := Format.other, pix := [], stride := 0 }

/-- A mock image whose bounding box reports width `-1`. -/
def negBoundsImg : Img :=
  { rect := { minX := 0, minY := 0, maxX := -1, maxY := 1 },
    format := Format.gray, pix := [], stride := 0 }

/-- A malformed but constructible 1×1 grayscale image with an empty backing
buffer, as Go's `&image.Gray{Rect: image.Rect(0, 0, 1, 1)}`. -/
def emptyPixImg : Img :=
  { rect := { minX := 0, minY := 0, maxX := 1, maxY := 1 },
    format := Format.gray, pix := [], stride := 0 }

/-- A 2×2 non-opaque RGBA image whose bounds do not start at the origin:
`Min = (1, 0)`, `Max = (3, 2)` (as produced by `SubImage`). -/
def shiftedImg : Img :=
  { rect := { minX := 1, minY := 0, maxX := 3, maxY := 2 },
    format := Format.rgba false, pix := List.replicate 16 9, stride := 8 }

theorem andNotThree_add_three (n : Nat) : andNotThree (n + 3) = ceil4 n := by
  unfold andNotThree ceil4
  omega

theorem four_dvd_andNotThree (n : Nat) : 4 ∣ andNotThree n := by
  unfold andNotThree
  omega

theorem range_flatMap_length (f : Nat → List Nat) (c : Nat)
    (hc : ∀ k, (f k).length = c) (n : Nat) :
    ((List.range n).flatMap f).length = c * n := by
  induction n with
  | zero => simp
  | succ n ih =>
    rw [List.range_succ, List.flatMap_append, List.length_append, ih]
    simp [hc]
    ring

theorem range_flatMap_getElem (f : Nat → List Nat) (c : Nat)
    (hc : ∀ k, (f k).length = c) (n : Nat) :
    ∀ i j, i < n → j < c →
      ((List.range n).flatMap f)[c * i + j]? = (f i)[j]? := by
  induction n with
  | zero => intro i j hi hj; omega
  | succ n ih =>
    intro i j hi hj
    rw [List.range_succ, List.flatMap_append]
    rcases Nat.lt_or_ge i n with h | h
    · rw [List.getElem?_append_left]
      · exact ih i j h hj
      · rw [range_flatMap_length f c hc n]
        have h1 : c * (i + 1) ≤ c * n := Nat.mul_le_mul_left c h
        have h2 : c * (i + 1) = c * i + c := by ring
        omega
    · have hin : i = n := by omega
      rw [hin]
      rw [List.getElem?_append_right]
      · rw [range_flatMap_length f c hc n]
        have h1 : c * n + j - c * n = j := by omega
        rw [h1]
        simp
      · rw [range_flatMap_length f c hc n]
        omega

theorem grayPalette_length : grayPalette.length = 1024 := by
  have hc : ∀ k, ((fun i => [u8 i, u8 i, u8 i, 255]) k).length = 4 := by
    intro k
    rfl
  have := range_flatMap_length _ 4 hc 256
  simpa [grayPalette] using this

theorem palettedEntry_length (pal : List GoColor) (i : Nat) :
    (palettedEntry pal i).length = 4 := by
  unfold palettedEntry
  cases pal[i]? <;> rfl

theorem palettedPalette_length (pal : List GoColor) :
    (palettedPalette pal).length = 1024 := by
  have := range_flatMap_length (palettedEntry pal) 4
    (palettedEntry_length pal) 256
  simpa [palettedPalette] using this

theorem encodeImg_hdr_eq (m : Img) (hx : 0 ≤ sizeX m) (hy : 0 ≤ sizeY m) :
    (encodeImg m).hdr =
      some (formatCase m.format (sizeX m).toNat (sizeY m).toNat
        (baseHeader (sizeX m).toNat (sizeY m).toNat)).2.2 := by
  unfold encodeImg
  rw [if_neg (by omega)]
  by_cases h0 : sizeX m = 0 ∨ sizeY m = 0
  · rw [if_pos h0]
  · rw [if_neg h0]
    by_cases hs : isSupported m.format = true
    · rw [if_pos hs]
    · rw [if_neg hs]

theorem encodeImg_palette_eq (m : Img) (hx : 0 ≤ sizeX m)
    (hy : 0 ≤ sizeY m) :
    (encodeImg m).palette =
      (formatCase m.format (sizeX m).toNat (sizeY m).toNat
        (baseHeader (sizeX m).toNat (sizeY m).toNat)).2.1 := by
  unfold encodeImg
  rw [if_neg (by omega)]
  by_cases h0 : sizeX m = 0 ∨ sizeY m = 0
  · rw [if_pos h0]
  · rw [if_neg h0]
    by_cases hs : isSupported m.format = true
    · rw [if_pos hs]
    · rw [if_neg hs]

theorem encodeImg_err_of_nonneg (m : Img) (hx : 0 ≤ sizeX m)
    (hy : 0 ≤ sizeY m) : (encodeImg m).err = none := by
  unfold encodeImg
  rw [if_neg (by omega)]
  by_cases h0 : sizeX m = 0 ∨ sizeY m = 0
  · rw [if_pos h0]
  · rw [if_neg h0]
    by_cases hs : isSupported m.format = true
    · rw [if_pos hs]
    · rw [if_neg hs]

theorem encodeImg_pix_stride (m : Img) (hx : 0 < sizeX m) (hy : 0 < sizeY m)
    (hs : isSupported m.format = true) :
    (encodeImg m).pix = m.pix ∧ (encodeImg m).stride = m.stride := by
  unfold encodeImg
  rw [if_neg (by omega), if_neg (by omega), if_pos hs]
  exact ⟨rfl, rfl⟩

theorem encodeImg_pix_stride_empty (m : Img) (hx : 0 ≤ sizeX m)
    (hy : 0 ≤ sizeY m) (h : sizeX m = 0 ∨ sizeY m = 0 ∨ m.format = Format.other) :
    (encodeImg m).pix = [] ∧ (encodeImg m).stride = 0 := by
  unfold encodeImg
  rw [if_neg (by omega)]
  by_cases h0 : sizeX m = 0 ∨ sizeY m = 0
  · rw [if_pos h0]
    exact ⟨rfl, rfl⟩
  · rw [if_neg h0]
    have ho : m.format = Format.other := by tauto
    have hs : ¬ isSupported m.format = true := by
      rw [ho]
      simp [isSupported]
    rw [if_neg hs]
    exact ⟨rfl, rfl⟩

/-- Claim C1: for every input image accepted without error (nonnegative
bounds), the header computed by `EncodeImg` satisfies
`fileSize = pixelDataOffset + imageDataSize` in the header's 32-bit
arithmetic, in every format branch (Gray8, Indexed8, RGBA32, NRGBA32 and
the fallback). -/
theorem claim1_fileSize_invariant (m : Img)
    (hx : 0 ≤ sizeX m) (hy : 0 ≤ sizeY m) :
    ∃ hd, (encodeImg m).hdr = some hd ∧
      hd.fileSize = u32 (hd.pixOffset + hd.imageSize) := by
  refine ⟨_, encodeImg_hdr_eq m hx hy, ?_⟩
  rcases m with ⟨rc, fmt, px, st⟩
  cases fmt <;>
    simp [formatCase, baseHeader, u32, grayPalette_length,
      palettedPalette_length] <;>
    omega

/-- Claim C1 witness: the invariant at the concrete 5×1 grayscale image. -/
theorem claim1_witness :
    ∃ hd, (encodeImg grayImg5).hdr = some hd ∧
      hd.fileSize = u32 (hd.pixOffset + hd.imageSize) :=
  claim1_fileSize_invariant grayImg5 (by decide) (by decide)

/-- Claim C2: `EncodeImg` returns an error exactly when the bounding box
reports a negative width or height; the error is the negative-bounds one
and comes with no partial output (empty pixel buffer, zero stride, no
header, no palette); every other input yields a nil error. -/
theorem claim2_negative_bounds_error (m : Img) :
    ((encodeImg m).err ≠ none ↔ sizeX m < 0 ∨ sizeY m < 0) ∧
    ((encodeImg m).err ≠ none →
      (encodeImg m).err = some negativeBoundsMsg ∧ (encodeImg m).pix = [] ∧
      (encodeImg m).stride = 0 ∧ (encodeImg m).hdr = none ∧
      (encodeImg m).palette = []) := by
  by_cases h : sizeX m < 0 ∨ sizeY m < 0
  · have he : encodeImg m =
        { pix := [], stride := 0, err := some negativeBoundsMsg,
          hdr := none, palette := [] } := by
      unfold encodeImg
      rw [if_pos h]
    rw [he]
    simpa using h
  · have he : (encodeImg m).err = none :=
      encodeImg_err_of_nonneg m (by omega) (by omega)
    rw [he]
    simpa using h

/-- Claim C2 witness: at the mock image of width `-1` the error fires. -/
theorem claim2_witness :
    (((encodeImg negBoundsImg).err ≠ none ↔
        sizeX negBoundsImg < 0 ∨ sizeY negBoundsImg < 0) ∧
      ((encodeImg negBoundsImg).err ≠ none →
        (encodeImg negBoundsImg).err = some negativeBoundsMsg ∧
        (encodeImg negBoundsImg).pix = [] ∧
        (encodeImg negBoundsImg).stride = 0 ∧
        (encodeImg negBoundsImg).hdr = none ∧
        (encodeImg negBoundsImg).palette = [])) :=
  claim2_negative_bounds_error negBoundsImg

/-- Claim C3: for every RGBA32/NRGBA32 image with nonnegative bounds, an
image reporting itself fully opaque gets `bitsPerPixel = 24` with row
stride `ceil4 (3 * W)`, otherwise `bitsPerPixel = 32` with row stride
`4 * W`; `imageDataSize` is `H` times that stride (32-bit), no palette is
emitted and `pixelDataOffset` stays 54. -/
theorem claim3_rgba_depth (m : Img) (op : Bool)
    (hf : m.format = Format.rgba op ∨ m.format = Format.nrgba op)
    (hx : 0 ≤ sizeX m) (hy : 0 ≤ sizeY m) :
    ∃ hd, (encodeImg m).hdr = some hd ∧
      (op = true → hd.bpp = 24 ∧
        hd.imageSize = u32 ((sizeY m).toNat * ceil4 (3 * (sizeX m).toNat))) ∧
      (op = false → hd.bpp = 32 ∧
        hd.imageSize = u32 ((sizeY m).toNat * (4 * (sizeX m).toNat))) ∧
      hd.pixOffset = 54 ∧ (encodeImg m).palette = [] := by
  refine ⟨_, encodeImg_hdr_eq m hx hy, ?_⟩
  rw [encodeImg_palette_eq m hx hy]
  rcases hf with hf | hf <;> rw [hf] <;> cases op <;>
    simp [formatCase, baseHeader, andNotThree_add_three]

/-- Claim C3 witness: the opaque and non-opaque 2×2 cases. -/
theorem claim3_witness :
    (∃ hd, (encodeImg rgbaSolidImg).hdr = some hd ∧
      (true = true → hd.bpp = 24 ∧
        hd.imageSize = u32 ((sizeY rgbaSolidImg).toNat *
          ceil4 (3 * (sizeX rgbaSolidImg).toNat))) ∧
      (true = false → hd.bpp = 32 ∧
        hd.imageSize = u32 ((sizeY rgbaSolidImg).toNat *
          (4 * (sizeX rgbaSolidImg).toNat))) ∧
      hd.pixOffset = 54 ∧ (encodeImg rgbaSolidImg).palette = []) :=
  claim3_rgba_depth rgbaSolidImg true (Or.inl rfl) (by decide) (by decide)

/-- Claim C4: for every Gray8/Indexed8 image with nonnegative bounds the
header uses row stride `ceil4 W` (so width 5 gives 8, width 4 gives 4,
width 1 gives 4), `bitsPerPixel = 8`, `imageDataSize = H * ceil4 W`
(32-bit) and `pixelDataOffset = 54 + 1024`; the 1024-byte palette offset
applies only to these two formats. -/
theorem claim4_indexed_geometry (m : Img)
    (hx : 0 ≤ sizeX m) (hy : 0 ≤ sizeY m) :
    ∃ hd, (encodeImg m).hdr = some hd ∧
      ((m.format = Format.gray ∨ ∃ pal, m.format = Format.paletted pal) →
        hd.bpp = 8 ∧
        hd.imageSize = u32 ((sizeY m).toNat * ceil4 (sizeX m).toNat) ∧
        hd.pixOffset = 54 + 1024) ∧
      ((m.format ≠ Format.gray ∧ ∀ pal, m.format ≠ Format.paletted pal) →
        hd.pixOffset = 54) ∧
      ceil4 5 = 8 ∧ ceil4 4 = 4 ∧ ceil4 1 = 4 := by
  refine ⟨_, encodeImg_hdr_eq m hx hy, ?_, ?_, by decide, by decide, by decide⟩ <;>
    rcases m with ⟨rc, fmt, px, st⟩ <;> cases fmt <;>
      simp [formatCase, baseHeader, u32, grayPalette_length,
        palettedPalette_length, andNotThree_add_three]

/-- Claim C4 witness: geometry of the 5×1 grayscale image. -/
theorem claim4_witness :
    ∃ hd, (encodeImg grayImg5).hdr = some hd ∧
      ((grayImg5.format = Format.gray ∨
          ∃ pal, grayImg5.format = Format.paletted pal) →
        hd.bpp = 8 ∧
        hd.imageSize = u32 ((sizeY grayImg5).toNat *
          ceil4 (sizeX grayImg5).toNat) ∧
        hd.pixOffset = 54 + 1024) ∧
      ((grayImg5.format ≠ Format.gray ∧
          ∀ pal, grayImg5.format ≠ Format.paletted pal) →
        hd.pixOffset = 54) ∧
      ceil4 5 = 8 ∧ ceil4 4 = 4 ∧ ceil4 1 = 4 :=
  claim4_indexed_geometry grayImg5 (by decide) (by decide)

theorem grayPalette_entry (i j : Nat) (hi : i < 256) (hj : j < 4) :
    grayPalette[4 * i + j]? = ([u8 i, u8 i, u8 i, 255])[j]? := by
  have := range_flatMap_getElem (fun k => [u8 k, u8 k, u8 k, 255]) 4
    (fun k => rfl) 256 i j hi hj
  simpa [grayPalette] using this

theorem palettedPalette_entry (pal : List GoColor) (i j : Nat)
    (hi : i < 256) (hj : j < 4) :
    (palettedPalette pal)[4 * i + j]? = (palettedEntry pal i)[j]? := by
  have := range_flatMap_getElem (palettedEntry pal) 4
    (palettedEntry_length pal) 256 i j hi hj
  simpa [palettedPalette] using this

/-- Claim C5: the 1024-byte palette built by `EncodeImg` has, for Gray8,
entry `i` equal to `(B, G, R, A) = (i, i, i, 255)` for every `i < 256`;
for Indexed8, entry `i` below the source palette length holds the source
color's channels truncated to 8 bits in B, G, R order with alpha forced to
255 (so a pure-red entry yields bytes `(0, 0, 255, 255)`), and every entry
at or beyond the source palette length is four zero bytes. -/
theorem claim5_palette_contents (m : Img) (pal : List GoColor) (i : Nat)
    (hi : i < 256) (hx : 0 ≤ sizeX m) (hy : 0 ≤ sizeY m) :
    (m.format = Format.gray →
      (encodeImg m).palette[4 * i]? = some i ∧
      (encodeImg m).palette[4 * i + 1]? = some i ∧
      (encodeImg m).palette[4 * i + 2]? = some i ∧
      (encodeImg m).palette[4 * i + 3]? = some 255) ∧
    (m.format = Format.paletted pal →
      (∀ c, pal[i]? = some c →
        (encodeImg m).palette[4 * i]? = some (u8 (c.b >>> 8)) ∧
        (encodeImg m).palette[4 * i + 1]? = some (u8 (c.g >>> 8)) ∧
        (encodeImg m).palette[4 * i + 2]? = some (u8 (c.r >>> 8)) ∧
        (encodeImg m).palette[4 * i + 3]? = some 255) ∧
      (pal.length ≤ i →
        (encodeImg m).palette[4 * i]? = some 0 ∧
        (encodeImg m).palette[4 * i + 1]? = some 0 ∧
        (encodeImg m).palette[4 * i + 2]? = some 0 ∧
        (encodeImg m).palette[4 * i + 3]? = some 0)) := by
  have hu : u8 i = i := Nat.mod_eq_of_lt hi
  constructor
  · intro hg
    rw [encodeImg_palette_eq m hx hy, hg]
    simp only [formatCase]
    have e0 := grayPalette_entry i 0 hi (by omega)
    have e1 := grayPalette_entry i 1 hi (by omega)
    have e2 := grayPalette_entry i 2 hi (by omega)
    have e3 := grayPalette_entry i 3 hi (by omega)
    simp only [Nat.add_zero] at e0
    simp [e0, e1, e2, e3, hu]
  · intro hp
    rw [encodeImg_palette_eq m hx hy, hp]
    simp only [formatCase]
    have e0 := palettedPalette_entry pal i 0 hi (by omega)
    have e1 := palettedPalette_entry pal i 1 hi (by omega)
    have e2 := palettedPalette_entry pal i 2 hi (by omega)
    have e3 := palettedPalette_entry pal i 3 hi (by omega)
    simp only [Nat.add_zero] at e0
    constructor
    · intro c hc
      rw [e0, e1, e2, e3]
      simp [palettedEntry, hc]
    · intro hlen
      have hnone : pal[i]? = none := by
        simp [List.getElem?_eq_none hlen]
      rw [e0, e1, e2, e3]
      simp [palettedEntry, hnone]

/-- Claim C5 witness: entry 0 of the red/green/blue source palette
(pure red) constrains the palette bytes at offset 0. -/
theorem claim5_witness :
    ((palImg.format = Format.gray →
      (encodeImg palImg).palette[4 * 0]? = some 0 ∧
      (encodeImg palImg).palette[4 * 0 + 1]? = some 0 ∧
      (encodeImg palImg).palette[4 * 0 + 2]? = some 0 ∧
      (encodeImg palImg).palette[4 * 0 + 3]? = some 255) ∧
    (palImg.format = Format.paletted redGreenBluePal →
      (∀ c, redGreenBluePal[0]? = some c →
        (encodeImg palImg).palette[4 * 0]? = some (u8 (c.b >>> 8)) ∧
        (encodeImg palImg).palette[4 * 0 + 1]? = some (u8 (c.g >>> 8)) ∧
        (encodeImg palImg).palette[4 * 0 + 2]? = some (u8 (c.r >>> 8)) ∧
        (encodeImg palImg).palette[4 * 0 + 3]? = some 255) ∧
      (redGreenBluePal.length ≤ 0 →
        (encodeImg palImg).palette[4 * 0]? = some 0 ∧
        (encodeImg palImg).palette[4 * 0 + 1]? = some 0 ∧
        (encodeImg palImg).palette[4 * 0 + 2]? = some 0 ∧
        (encodeImg palImg).palette[4 * 0 + 3]? = some 0))) :=
  claim5_palette_contents palImg redGreenBluePal 0 (by decide) (by decide)
    (by decide)

theorem isSupported_of_ne_other (f : Format) (h : f ≠ Format.other) :
    isSupported f = true := by
  cases f <;> simp [isSupported] at h ⊢

theorem four_dvd_formatCase_step (f : Format) (dX dY : Nat) (base : Header) :
    4 ∣ (formatCase f dX dY base).1 := by
  cases f <;> simp only [formatCase]
  case gray => exact four_dvd_andNotThree _
  case paletted pal => exact four_dvd_andNotThree _
  case rgba op =>
    cases op <;> simp [four_dvd_andNotThree]
  case nrgba op =>
    cases op <;> simp [four_dvd_andNotThree]
  case other => exact four_dvd_andNotThree _

/-- Claim C6 counterexample: the 5×1 grayscale image as built by
`image.NewGray` has native stride 5; `EncodeImg` hands that stride back
unchanged, and 5 is not a multiple of 4. -/
theorem claim6_counterexample :
    (encodeImg grayImg5).stride = 5 ∧
    ¬ (4 : Int) ∣ (encodeImg grayImg5).stride := by
  have h := (encodeImg_pix_stride grayImg5 (by decide) (by decide) rfl).2
  rw [h]
  decide

/-- Claim C6 amended: for every supported-format image with positive
dimensions, the internal row stride used to size the image data is a
multiple of 4, but the stride `EncodeImg` returns is the source image's
native stride, which need not be. -/
theorem claim6_amended (m : Img) (hx : 0 < sizeX m) (hy : 0 < sizeY m)
    (hs : isSupported m.format = true) :
    4 ∣ (formatCase m.format (sizeX m).toNat (sizeY m).toNat
        (baseHeader (sizeX m).toNat (sizeY m).toNat)).1 ∧
    (encodeImg m).stride = m.stride :=
  ⟨four_dvd_formatCase_step m.format _ _ _,
    (encodeImg_pix_stride m hx hy hs).2⟩

/-- Claim C6 amended witness: the 2×2 opaque RGBA image. -/
theorem claim6_witness :
    4 ∣ (formatCase rgbaSolidImg.format (sizeX rgbaSolidImg).toNat
        (sizeY rgbaSolidImg).toNat
        (baseHeader (sizeX rgbaSolidImg).toNat
          (sizeY rgbaSolidImg).toNat)).1 ∧
    (encodeImg rgbaSolidImg).stride = rgbaSolidImg.stride :=
  claim6_amended rgbaSolidImg (by decide) (by decide) rfl

/-- Claim C7: for every supported-format image with positive width and
height, `EncodeImg` returns the source image's own backing pixel buffer
byte-for-byte and the source image's native stride (the input image, a
pure value here, is not modified). -/
theorem claim7_zero_copy (m : Img) (hx : 0 < sizeX m) (hy : 0 < sizeY m)
    (hs : isSupported m.format = true) :
    (encodeImg m).pix = m.pix ∧ (encodeImg m).stride = m.stride :=
  encodeImg_pix_stride m hx hy hs

/-- Claim C7 witness: the 2×2 paletted image. -/
theorem claim7_witness :
    (encodeImg palImg).pix = palImg.pix ∧
    (encodeImg palImg).stride = palImg.stride :=
  claim7_zero_copy palImg (by decide) (by decide) rfl

/-- Claim C8 counterexample: a constructible 1×1 grayscale image with an
empty backing buffer (`&image.Gray{Rect: image.Rect(0, 0, 1, 1)}`) makes
`EncodeImg` return an empty pixel buffer, stride 0 and a nil error even
though `W ≠ 0`, `H ≠ 0` and the format is a supported one. -/
theorem claim8_counterexample :
    (encodeImg emptyPixImg).pix = [] ∧ (encodeImg emptyPixImg).stride = 0 ∧
    (encodeImg emptyPixImg).err = none ∧
    ¬ (sizeX emptyPixImg = 0 ∨ sizeY emptyPixImg = 0 ∨
        emptyPixImg.format = Format.other) := by
  have h := encodeImg_pix_stride emptyPixImg (by decide) (by decide) rfl
  exact ⟨h.1, h.2, encodeImg_err_of_nonneg emptyPixImg (by decide) (by decide),
    by decide⟩

/-- Claim C8 amended: with nonnegative bounds, whenever `W = 0`, `H = 0`
or the format is unsupported, `EncodeImg` returns an empty pixel buffer
and stride 0 with a nil error, the fallback still carrying a fully
computed 24-bit header; in every other case it returns the source's
backing buffer with a nil error, so the output is non-empty exactly when
the source buffer is. -/
theorem claim8_amended (m : Img) (hx : 0 ≤ sizeX m) (hy : 0 ≤ sizeY m) :
    ((sizeX m = 0 ∨ sizeY m = 0 ∨ m.format = Format.other) →
      (encodeImg m).pix = [] ∧ (encodeImg m).stride = 0 ∧
      (encodeImg m).err = none) ∧
    (m.format = Format.other →
      ∃ hd, (encodeImg m).hdr = some hd ∧ hd.bpp = 24 ∧
        hd.imageSize = u32 ((sizeY m).toNat * ceil4 (3 * (sizeX m).toNat))) ∧
    (¬ (sizeX m = 0 ∨ sizeY m = 0 ∨ m.format = Format.other) →
      (encodeImg m).pix = m.pix ∧ (encodeImg m).err = none) := by
  refine ⟨?_, ?_, ?_⟩
  · intro h
    obtain ⟨h1, h2⟩ := encodeImg_pix_stride_empty m hx hy h
    exact ⟨h1, h2, encodeImg_err_of_nonneg m hx hy⟩
  · intro ho
    refine ⟨_, encodeImg_hdr_eq m hx hy, ?_⟩
    rw [ho]
    simp [formatCase, baseHeader, andNotThree_add_three]
  · intro h
    push_neg at h
    obtain ⟨h1, h2, h3⟩ := h
    have hp := encodeImg_pix_stride m (by omega) (by omega)
      (isSupported_of_ne_other m.format h3)
    exact ⟨hp.1, encodeImg_err_of_nonneg m hx hy⟩

/-- Claim C8 amended witness: the unsupported-format 2×2 image. -/
theorem claim8_witness :
    ((sizeX otherImg = 0 ∨ sizeY otherImg = 0 ∨
        otherImg.format = Format.other) →
      (encodeImg otherImg).pix = [] ∧ (encodeImg otherImg).stride = 0 ∧
      (encodeImg otherImg).err = none) ∧
    (otherImg.format = Format.other →
      ∃ hd, (encodeImg otherImg).hdr = some hd ∧ hd.bpp = 24 ∧
        hd.imageSize = u32 ((sizeY otherImg).toNat *
          ceil4 (3 * (sizeX otherImg).toNat))) ∧
    (¬ (sizeX otherImg = 0 ∨ sizeY otherImg = 0 ∨
        otherImg.format = Format.other) →
      (encodeImg otherImg).pix = otherImg.pix ∧
      (encodeImg otherImg).err = none) :=
  claim8_amended otherImg (by decide) (by decide)

/-- Claim C9 counterexample: for a 2×2 image whose bounds are
`(1,0)-(3,2)` (so `W = 2`, `H = 2`), `ConvertToRGBA` sets the rectangle
`(0,0)-(3,2)`, not the claimed `(0,0)-(W,H) = (0,0)-(2,2)`: the code uses
`Bounds().Max`, not the width/height. -/
theorem claim9_counterexample :
    sizeX shiftedImg = 2 ∧ sizeY shiftedImg = 2 ∧
    (convertToRGBA shiftedImg).rect =
      { minX := 0, minY := 0, maxX := 3, maxY := 2 } ∧
    (convertToRGBA shiftedImg).rect ≠
      { minX := 0, minY := 0, maxX := 2, maxY := 2 } := by
  refine ⟨by decide, by decide, ?_, ?_⟩ <;>
    simp [convertToRGBA, goRect, width, height, shiftedImg]

/-- Claim C9 amended: `ConvertToRGBA` always reuses exactly the pixel
buffer and stride returned by `EncodeImg`, and its rectangle runs from
`(0,0)` to the source's `Bounds().Max`; when the source bounds start at
the origin (with nonnegative `Max`) that rectangle is `(0,0)-(W,H)`. -/
theorem claim9_amended (m : Img) (h0x : m.rect.minX = 0)
    (h0y : m.rect.minY = 0) (hx : 0 ≤ m.rect.maxX) (hy : 0 ≤ m.rect.maxY) :
    (convertToRGBA m).pix = (encodeImg m).pix ∧
    (convertToRGBA m).stride = (encodeImg m).stride ∧
    (convertToRGBA m).rect =
      { minX := 0, minY := 0, maxX := sizeX m, maxY := sizeY m } := by
  refine ⟨rfl, rfl, ?_⟩
  simp only [convertToRGBA, goRect, width, height, sizeX, sizeY, h0x, h0y]
  rw [if_neg (by omega), if_neg (by omega)]
  simp

/-- Claim C9 amended witness: the 2×2 opaque RGBA image at the origin. -/
theorem claim9_witness :
    (convertToRGBA rgbaSolidImg).pix = (encodeImg rgbaSolidImg).pix ∧
    (convertToRGBA rgbaSolidImg).stride = (encodeImg rgbaSolidImg).stride ∧
    (convertToRGBA rgbaSolidImg).rect =
      { minX := 0, minY := 0, maxX := sizeX rgbaSolidImg,
        maxY := sizeY rgbaSolidImg } :=
  claim9_amended rgbaSolidImg (by decide) (by decide) (by decide) (by decide)

/-- Claim C10: for every image file whose configuration decodes
successfully, `GetSize` returns half the decoded width and half the
decoded height, each with integer truncation — strictly less than the
decoded dimension whenever that dimension is nonzero, so never the actual
size of a real image. -/
theorem claim10_getSize_halves (c : GoConfig) :
    getSize (Except.ok c) = Except.ok (c.width / 2, c.height / 2) ∧
    (1 ≤ c.width → c.width / 2 < c.width) ∧
    (1 ≤ c.height → c.height / 2 < c.height) := by
  refine ⟨rfl, ?_, ?_⟩ <;> omega

/-- Claim C10 witness: a 5×3 configuration yields `(2, 1)`. -/
theorem claim10_witness :
    getSize (Except.ok { width := 5, height := 3 }) = Except.ok (2, 1) ∧
    (1 ≤ 5 → 5 / 2 < 5) ∧ (1 ≤ 3 → 3 / 2 < 3) :=
  claim10_getSize_halves { width := 5, height := 3 }

end Imgo
